import Mathlib

/-!
Verification of the todo_backend task-extraction pipeline and owner-scoped
CRUD layer, as a shallow embedding of the Go sources:
  internal/llm/extractor.go, internal/llm/openai.go,
  internal/services/task_service.go, internal/repositories/task_repository.go,
  internal/models (Task model).
External collaborators (the HTTP transport, the encoding/json parsers, the
gorm-backed task store, the uuid generator) are modeled as explicit
parameters, mirroring the interfaces the Go code programs against.
-/

namespace TodoBackend

/-- Go `time.Time`, modeled as an absolute instant in Nat ticks.
The Go zero value `time.Time{}` is modeled as tick 0, so `IsZero t ↔ t = 0`. -/
abbrev GoTime := Nat

/-- Go `time.Time.IsZero`. -/
def GoTime.IsZero (t : GoTime) : Bool := t == 0

namespace llm

/-- `llm.Task` from internal/llm/extractor.go: the structured candidate the
model returns. `DueDate` is a plain (non-pointer) `time.Time`, so an absent
JSON `due_date` leaves the Go zero value, modeled as tick 0. -/
structure Task where
  Title : String
  Description : String
  DueDate : GoTime
  Priority : String
  Subtasks : List String
deriving DecidableEq, Repr

/-- Inner message of one OpenAI chat choice (anonymous struct in openai.go). -/
structure Message where
  content : String
deriving DecidableEq, Repr

/-- One element of the OpenAI `choices` array (anonymous struct in openai.go). -/
structure Choice where
  message : Message
deriving DecidableEq, Repr

/-- The response envelope `ExtractTasks` decodes from the provider
(anonymous struct in openai.go). -/
structure OpenAIResponse where
  choices : List Choice
deriving DecidableEq, Repr

/-- Outcome of the single `httpClient.Do` round trip in `ExtractTasks`:
either the transport fails, or the provider answers with a status code and a
body. -/
inductive HTTPOutcome where
  | transportError (msg : String)
  | response (statusCode : Nat) (body : String)
deriving DecidableEq, Repr

/-- `openAIExtractionPrompt` from internal/llm/openai.go: the fixed system
instruction string, reproduced verbatim (braces escaped). Note the hardcoded
reference date line. -/
def openAIExtractionPrompt : String :=
  "\nYou are a highly efficient task extraction AI. Your sole purpose is to parse user-provided text and extract structured tasks in a strict JSON array format.\n\nCurrent Date: November 19, 2025\n\nHere are the rules:\n- ALWAYS respond with a JSON array of tasks. Do not include any other prose, explanations, or text outside the JSON array.\n- If no tasks can be extracted, return an empty JSON array: []\n- Each task object must adhere to the following strict JSON schema:\n  \x7b\n    \"title\": \"string\",            // Required: A concise summary of the task.\n    \"description\": \"string\",      // Required: A detailed description of the task. If not explicitly provided, infer from the title.\n    \"due_date\": \"string\",         // Required: The due date of the task in ISO 8601 format (e.g., \"2025-11-23T10:00:00Z\"). If no specific time is given, default to 00:00:00Z on the specified date. If no date is mentioned, use null.\n    \"priority\": \"string\",         // Required: The priority of the task. Must be one of: \"low\", \"medium\", \"high\". Default to \"medium\" if not specified.\n    \"subtasks\": [\"string\"]        // Required: An array of strings, where each string is a subtask. If no subtasks, return an empty array [].\n  \x7d\n- Handle natural date expressions (e.g., \"tomorrow\", \"next week\", \"Monday morning\", \"in 3 days\"). Convert them to the appropriate ISO 8601 timestamp relative to the current date and time.\n- Detect multiple tasks within a single input text.\n- Ensure all required fields are present. Infer if necessary.\n- On failure to extract or parse, return an empty array [].\n"

/-- The part of `openAIExtractionPrompt` before its hardcoded reference-date
line (used to exhibit that the date is baked into the instruction string). -/
def promptBeforeDate : String :=
  "\nYou are a highly efficient task extraction AI. Your sole purpose is to parse user-provided text and extract structured tasks in a strict JSON array format.\n\n"

/-- The part of `openAIExtractionPrompt` after its hardcoded reference-date
line. -/
def promptAfterDate : String :=
  "\n\nHere are the rules:\n- ALWAYS respond with a JSON array of tasks. Do not include any other prose, explanations, or text outside the JSON array.\n- If no tasks can be extracted, return an empty JSON array: []\n- Each task object must adhere to the following strict JSON schema:\n  \x7b\n    \"title\": \"string\",            // Required: A concise summary of the task.\n    \"description\": \"string\",      // Required: A detailed description of the task. If not explicitly provided, infer from the title.\n    \"due_date\": \"string\",         // Required: The due date of the task in ISO 8601 format (e.g., \"2025-11-23T10:00:00Z\"). If no specific time is given, default to 00:00:00Z on the specified date. If no date is mentioned, use null.\n    \"priority\": \"string\",         // Required: The priority of the task. Must be one of: \"low\", \"medium\", \"high\". Default to \"medium\" if not specified.\n    \"subtasks\": [\"string\"]        // Required: An array of strings, where each string is a subtask. If no subtasks, return an empty array [].\n  \x7d\n- Handle natural date expressions (e.g., \"tomorrow\", \"next week\", \"Monday morning\", \"in 3 days\"). Convert them to the appropriate ISO 8601 timestamp relative to the current date and time.\n- Detect multiple tasks within a single input text.\n- Ensure all required fields are present. Infer if necessary.\n- On failure to extract or parse, return an empty array [].\n"

/-- The chat messages `ExtractTasks` marshals into the request body
(role, content pairs): the fixed system prompt followed by the raw user
text. The function receives only the text — there is no reference-time
argument anywhere in `ExtractTasks`'s signature. -/
def extractionRequestMessages (text : String) : List (String × String) :=
  [("system", openAIExtractionPrompt), ("user", text)]

/-- `OpenAIExtractor.ExtractTasks` from internal/llm/openai.go, response
side. Parameters model the external collaborators:
`decodeEnvelope` is `json.NewDecoder(resp.Body).Decode(&openaiResponse)`
(`none` = decode error), `unmarshalTasks` is
`json.Unmarshal([]byte(content), &tasks)` (`none` = not a well-formed JSON
array of the candidate schema), and `outcome` is the result of the single
`httpClient.Do` call. Returns the Go pair (tasks slice, error): `none` in
the first component is Go's nil slice, `none` in the second is a nil error. -/
def ExtractTasks (decodeEnvelope : String → Option OpenAIResponse)
    (unmarshalTasks : String → Option (List Task))
    (outcome : HTTPOutcome) : Option (List Task) × Option String :=
  match outcome with
  | .transportError msg =>
      (none, some ("failed to send request to OpenAI: " ++ msg))
  | .response statusCode body =>
      if statusCode ≠ 200 then
        (none, some ("openai api error: status " ++ toString statusCode ++ ", body: " ++ body))
      else
        match decodeEnvelope body with
        | none => (none, some "failed to decode OpenAI response")
        | some openaiResponse =>
            match openaiResponse.choices with
            | [] => (some [], none)
            | choice :: _ =>
                match unmarshalTasks choice.message.content with
                | none =>
                    (some [], some ("failed to unmarshal tasks from LLM response. Response content: "
                      ++ choice.message.content))
                | some tasks => (some tasks, none)

end llm

namespace models

/-- `models.Task` from internal/models (task model file): the persisted
task row. `DueDate` is `*time.Time`, modeled as `Option GoTime`. -/
structure Task where
  ID : Nat
  UserID : Nat
  Title : String
  Description : String
  DueDate : Option GoTime
  Priority : String
  RawText : String
  Completed : Bool
  CreatedAt : GoTime
  UpdatedAt : GoTime
deriving DecidableEq, Repr

end models

namespace repositories

/-- `TaskRepository.GetTaskByID` from internal/repositories/task_repository.go:
`db.Where("id = ? AND user_id = ?", id, userID).First(&task)`. The gorm
store is modeled as a list of rows; `none` models `gorm.ErrRecordNotFound`,
the only error this development tracks for lookups. -/
def GetTaskByID (id userID : Nat) (store : List models.Task) : Option models.Task :=
  store.find? (fun t => t.ID == id && t.UserID == userID)

/-- `TaskRepository.UpdateTask`: `db.Save(task)`, an update keyed on the
primary key — the row whose `ID` matches is replaced. -/
def UpdateTask (task : models.Task) (store : List models.Task) : List models.Task :=
  store.map (fun t => if t.ID == task.ID then task else t)

/-- `TaskRepository.DeleteTask`: delete `WHERE id = ? AND user_id = ?`;
when `RowsAffected == 0` it returns `gorm.ErrRecordNotFound` (modeled as
`some "record not found"`) and the store is untouched. -/
def DeleteTask (id userID : Nat) (store : List models.Task) :
    List models.Task × Option String :=
  let remaining := store.filter (fun t => !(t.ID == id && t.UserID == userID))
  if remaining.length == store.length then (store, some "record not found")
  else (remaining, none)

end repositories

namespace services

/-- `TaskService.GetTaskByID` from internal/services/task_service.go:
a `gorm.ErrRecordNotFound` from the repository is reported uniformly as
"task not found or unauthorized". -/
def GetTaskByID (id userID : Nat) (store : List models.Task) :
    Option models.Task × Option String :=
  match repositories.GetTaskByID id userID store with
  | none => (none, some "task not found or unauthorized")
  | some task => (some task, none)

/-- The field-mutation block of `TaskService.UpdateTask` (the five
`existingTask.X = task.X` assignments): only Title, Description, DueDate,
Priority and RawText are overwritten. -/
def applyUpdate (existingTask task : models.Task) : models.Task :=
  { existingTask with
      Title := task.Title
      Description := task.Description
      DueDate := task.DueDate
      Priority := task.Priority
      RawText := task.RawText }

/-- `TaskService.UpdateTask`: ownership check via an (id, userID)-scoped
lookup, then mutation of the five updatable fields, then `db.Save`.
Returns the updated store and the Go error. -/
def UpdateTask (task : models.Task) (userID : Nat) (store : List models.Task) :
    List models.Task × Option String :=
  match repositories.GetTaskByID task.ID userID store with
  | none => (store, some "task not found or unauthorized")
  | some existingTask =>
      (repositories.UpdateTask (applyUpdate existingTask task) store, none)

/-- `TaskService.DeleteTask`: a `gorm.ErrRecordNotFound` from the scoped
repository delete is reported uniformly as "task not found or unauthorized". -/
def DeleteTask (id userID : Nat) (store : List models.Task) :
    List models.Task × Option String :=
  match repositories.DeleteTask id userID store with
  | (_, some _) => (store, some "task not found or unauthorized")
  | (store', none) => (store', none)

/-- The `models.Task` literal built for one candidate inside
`ExtractAndCreateTasks`: a fresh id from `uuid.New()` (modeled by the
supplied `newID`), the requesting user, candidate fields copied, a zero
`DueDate` mapped to nil, and `RawText` set to the full original input.
`Completed`, `CreatedAt`, `UpdatedAt` are Go zero values in the literal. -/
def translateTask (newID userID : Nat) (text : String) (llmTask : llm.Task) : models.Task :=
  { ID := newID
    UserID := userID
    Title := llmTask.Title
    Description := llmTask.Description
    DueDate := if llmTask.DueDate.IsZero then none else some llmTask.DueDate
    Priority := llmTask.Priority
    RawText := text
    Completed := false
    CreatedAt := 0
    UpdatedAt := 0 }

/-- The persistence loop of `ExtractAndCreateTasks` over the extracted
candidates. `createFails i` is the behaviour of the `taskRepo.CreateTask`
collaborator on its i-th invocation (`true` = the insert errors, and the
`continue` branch skips the candidate). `uuid.New()` is modeled as a fresh
supply: the n-th call yields `nextID + n`, distinct across the batch per
uuid's uniqueness contract. Returns (createdTasks, trace of every task
passed to `CreateTask` in call order). -/
def extractLoop (createFails : Nat → Bool) (text : String) (userID : Nat) :
    List llm.Task → Nat → Nat → List models.Task × List models.Task
  | [], _, _ => ([], [])
  | llmTask :: rest, idx, nextID =>
      let task := translateTask nextID userID text llmTask
      let result := extractLoop createFails text userID rest (idx + 1) (nextID + 1)
      if createFails idx then (result.1, task :: result.2)
      else (task :: result.1, task :: result.2)

/-- Result of `ExtractAndCreateTasks`: the Go return pair plus an
instrumentation trace (`createCalls`) recording each invocation of
`taskRepo.CreateTask`. -/
structure ExtractCreateResult where
  createdTasks : List models.Task
  err : Option String
  createCalls : List models.Task
deriving DecidableEq, Repr

/-- `TaskService.ExtractAndCreateTasks` from internal/services/task_service.go.
`extractResult` is the outcome of the `llmExtractor.ExtractTasks` collaborator
call (candidates, error); on an extractor error the function returns at once,
before any persistence call. Otherwise it runs the per-candidate loop and
reports success with whatever subset was stored. -/
def ExtractAndCreateTasks (extractResult : List llm.Task × Option String)
    (createFails : Nat → Bool) (text : String) (userID : Nat) (firstID : Nat) :
    ExtractCreateResult :=
  match extractResult.2 with
  | some e =>
      { createdTasks := []
        err := some ("failed to extract tasks with LLM: " ++ e)
        createCalls := [] }
  | none =>
      let result := extractLoop createFails text userID extractResult.1 0 firstID
      { createdTasks := result.1, err := none, createCalls := result.2 }

end services

/-! ## Helper lemmas about the persistence loop -/

open services

/-- When every create in range succeeds, the loop produces the same created
list as the never-failing behaviour. -/
lemma extractLoop_all_ok (cf : Nat → Bool) (text : String) (uid : Nat) :
    ∀ (ts : List llm.Task) (idx nid : Nat),
      (∀ i, i < ts.length → cf (idx + i) = false) →
      (extractLoop cf text uid ts idx nid).1 =
        (extractLoop (fun _ => false) text uid ts idx nid).1
  | [], _, _, _ => rfl
  | c :: rest, idx, nid, h => by
      have h0 : cf idx = false := by simpa using h 0 (Nat.succ_pos _)
      have hrest : ∀ i, i < rest.length → cf (idx + 1 + i) = false := by
        intro i hi
        have e : idx + 1 + i = idx + (i + 1) := by omega
        rw [e]
        exact h (i + 1) (by simpa using Nat.succ_lt_succ hi)
      simp [extractLoop, h0,
        extractLoop_all_ok cf text uid rest (idx + 1) (nid + 1) hrest]

/-- The never-failing behaviour creates one task per candidate. -/
lemma extractLoop_false_length (text : String) (uid : Nat) :
    ∀ (ts : List llm.Task) (idx nid : Nat),
      ((extractLoop (fun _ => false) text uid ts idx nid).1).length = ts.length
  | [], _, _ => rfl
  | _ :: rest, idx, nid => by
      simp [extractLoop, extractLoop_false_length text uid rest (idx + 1) (nid + 1)]

/-- If exactly the k-th create fails, the created list is the all-success
list with its k-th element removed. -/
lemma extractLoop_one_fail (cf : Nat → Bool) (text : String) (uid : Nat) :
    ∀ (ts : List llm.Task) (idx nid k : Nat), k < ts.length →
      (∀ i, i < ts.length → (cf (idx + i) = true ↔ i = k)) →
      (extractLoop cf text uid ts idx nid).1 =
        ((extractLoop (fun _ => false) text uid ts idx nid).1).eraseIdx k
  | [], _, _, k, hk, _ => absurd hk (by simp)
  | c :: rest, idx, nid, 0, _, h => by
      have h0 : cf idx = true := by
        simpa using (h 0 (Nat.succ_pos _)).mpr rfl
      have hrest : ∀ i, i < rest.length → cf (idx + 1 + i) = false := by
        intro i hi
        rcases Bool.eq_false_or_eq_true (cf (idx + 1 + i)) with ht | hf
        · exfalso
          have e : idx + 1 + i = idx + (i + 1) := by omega
          have h' := (h (i + 1) (by simpa using Nat.succ_lt_succ hi)).mp
            (by rw [← e]; exact ht)
          omega
        · exact hf
      simp [extractLoop, h0,
        extractLoop_all_ok cf text uid rest (idx + 1) (nid + 1) hrest]
  | c :: rest, idx, nid, k + 1, hk, h => by
      have h0 : cf idx = false := by
        rcases Bool.eq_false_or_eq_true (cf idx) with ht | hf
        · exfalso
          have h' := (h 0 (Nat.succ_pos _)).mp (by simpa using ht)
          omega
        · exact hf
      have hk' : k < rest.length := by
        simpa using Nat.lt_of_succ_lt_succ hk
      have hrest : ∀ i, i < rest.length → (cf (idx + 1 + i) = true ↔ i = k) := by
        intro i hi
        have e : idx + 1 + i = idx + (i + 1) := by omega
        rw [e, h (i + 1) (by simpa using Nat.succ_lt_succ hi)]
        omega
      simp [extractLoop, h0,
        extractLoop_one_fail cf text uid rest (idx + 1) (nid + 1) k hk' hrest]

/-- Every task the loop creates carries an id at or above the id supply. -/
lemma extractLoop_mem_id_ge (cf : Nat → Bool) (text : String) (uid : Nat) :
    ∀ (ts : List llm.Task) (idx nid : Nat) (t : models.Task),
      t ∈ (extractLoop cf text uid ts idx nid).1 → nid ≤ t.ID
  | [], _, _, _ => by simp [extractLoop]
  | c :: rest, idx, nid, t => by
      intro hmem
      cases hcf : cf idx with
      | true =>
          simp only [extractLoop, hcf, if_true] at hmem
          exact Nat.le_of_succ_le
            (extractLoop_mem_id_ge cf text uid rest (idx + 1) (nid + 1) t hmem)
      | false =>
          simp only [extractLoop, hcf, Bool.false_eq_true, if_false, List.mem_cons] at hmem
          rcases hmem with hmem | hmem
          · subst hmem; exact Nat.le_refl _
          · exact Nat.le_of_succ_le
              (extractLoop_mem_id_ge cf text uid rest (idx + 1) (nid + 1) t hmem)

/-- The ids of the tasks the loop creates are pairwise distinct. -/
lemma extractLoop_ids_nodup (cf : Nat → Bool) (text : String) (uid : Nat) :
    ∀ (ts : List llm.Task) (idx nid : Nat),
      ((extractLoop cf text uid ts idx nid).1.map models.Task.ID).Nodup
  | [], _, _ => by simp [extractLoop]
  | c :: rest, idx, nid => by
      cases hcf : cf idx with
      | true =>
          simpa only [extractLoop, hcf, if_true]
            using extractLoop_ids_nodup cf text uid rest (idx + 1) (nid + 1)
      | false =>
          simp only [extractLoop, hcf, Bool.false_eq_true, if_false, List.map_cons,
            List.nodup_cons]
          refine ⟨?_, extractLoop_ids_nodup cf text uid rest (idx + 1) (nid + 1)⟩
          intro hmem
          rcases List.mem_map.mp hmem with ⟨t, ht, hid⟩
          have := extractLoop_mem_id_ge cf text uid rest (idx + 1) (nid + 1) t ht
          simp only [translateTask] at hid
          omega

/-- Every task the loop creates is owned by the requesting user and carries
the full original input as raw text. -/
lemma extractLoop_mem_fields (cf : Nat → Bool) (text : String) (uid : Nat) :
    ∀ (ts : List llm.Task) (idx nid : Nat) (t : models.Task),
      t ∈ (extractLoop cf text uid ts idx nid).1 →
      t.UserID = uid ∧ t.RawText = text
  | [], _, _, _ => by simp [extractLoop]
  | c :: rest, idx, nid, t => by
      intro hmem
      cases hcf : cf idx with
      | true =>
          simp only [extractLoop, hcf, if_true] at hmem
          exact extractLoop_mem_fields cf text uid rest (idx + 1) (nid + 1) t hmem
      | false =>
          simp only [extractLoop, hcf, Bool.false_eq_true, if_false, List.mem_cons] at hmem
          rcases hmem with hmem | hmem
          · subst hmem; exact ⟨rfl, rfl⟩
          · exact extractLoop_mem_fields cf text uid rest (idx + 1) (nid + 1) t hmem

/-! ## Claim theorems -/

/-- C1: when the extraction client returns N candidates and persisting
exactly one of them (the k-th) fails, `ExtractAndCreateTasks` still succeeds
(no error) and returns exactly N−1 tasks, namely the all-success result with
the failed candidate's task removed — the rest keep their relative
extraction order. -/
theorem extractAndCreate_one_failure_skipped
    (ts : List llm.Task) (cf : Nat → Bool) (text : String) (userID firstID k : Nat)
    (hk : k < ts.length)
    (hcf : ∀ i, i < ts.length → (cf i = true ↔ i = k)) :
    (ExtractAndCreateTasks (ts, none) cf text userID firstID).err = none ∧
    (ExtractAndCreateTasks (ts, none) cf text userID firstID).createdTasks.length
      = ts.length - 1 ∧
    (ExtractAndCreateTasks (ts, none) cf text userID firstID).createdTasks =
      ((ExtractAndCreateTasks (ts, none) (fun _ => false) text userID
        firstID).createdTasks).eraseIdx k := by
  have hcf' : ∀ i, i < ts.length → (cf (0 + i) = true ↔ i = k) := by
    intro i hi
    simpa using hcf i hi
  have key := extractLoop_one_fail cf text userID ts 0 firstID k hk hcf'
  have hlen : ((extractLoop (fun _ => false) text userID ts 0 firstID).1).length = ts.length :=
    extractLoop_false_length text userID ts 0 firstID
  refine ⟨rfl, ?_, ?_⟩
  · show ((extractLoop cf text userID ts 0 firstID).1).length = ts.length - 1
    rw [key, List.length_eraseIdx_of_lt (by rw [hlen]; exact hk), hlen]
  · exact key

/-- Witness for C1 on three concrete candidates with the middle create
failing. -/
theorem extractAndCreate_one_failure_skipped_witness :
    (ExtractAndCreateTasks
      ([⟨"a", "da", 0, "low", []⟩, ⟨"b", "db", 5, "medium", []⟩,
        ⟨"c", "dc", 0, "high", []⟩], none)
      (fun i => i == 1) "note" 7 100).err = none ∧
    (ExtractAndCreateTasks
      ([⟨"a", "da", 0, "low", []⟩, ⟨"b", "db", 5, "medium", []⟩,
        ⟨"c", "dc", 0, "high", []⟩], none)
      (fun i => i == 1) "note" 7 100).createdTasks.length = 3 - 1 ∧
    (ExtractAndCreateTasks
      ([⟨"a", "da", 0, "low", []⟩, ⟨"b", "db", 5, "medium", []⟩,
        ⟨"c", "dc", 0, "high", []⟩], none)
      (fun i => i == 1) "note" 7 100).createdTasks =
      ((ExtractAndCreateTasks
        ([⟨"a", "da", 0, "low", []⟩, ⟨"b", "db", 5, "medium", []⟩,
          ⟨"c", "dc", 0, "high", []⟩], none)
        (fun _ => false) "note" 7 100).createdTasks).eraseIdx 1 :=
  extractAndCreate_one_failure_skipped
    [⟨"a", "da", 0, "low", []⟩, ⟨"b", "db", 5, "medium", []⟩, ⟨"c", "dc", 0, "high", []⟩]
    (fun i => i == 1) "note" 7 100 1 (by decide) (by decide)

/-- C2: `ExtractAndCreateTasks` errors exactly when the extraction client
call errored; when the client returns zero candidates and no error the
result is the empty sequence with no error. -/
theorem extractAndCreate_err_iff_extractor_err
    (res : List llm.Task × Option String) (cf : Nat → Bool) (text : String)
    (userID firstID : Nat) :
    ((ExtractAndCreateTasks res cf text userID firstID).err ≠ none ↔ res.2 ≠ none) ∧
    (res = ([], none) →
      (ExtractAndCreateTasks res cf text userID firstID).createdTasks = [] ∧
      (ExtractAndCreateTasks res cf text userID firstID).err = none) := by
  obtain ⟨ts, e⟩ := res
  cases e with
  | none =>
      refine ⟨by simp [ExtractAndCreateTasks], ?_⟩
      intro h
      have hts : ts = [] := by
        simpa using congrArg Prod.fst h
      subst hts
      exact ⟨rfl, rfl⟩
  | some msg =>
      refine ⟨by simp [ExtractAndCreateTasks], ?_⟩
      intro h
      simp at h

/-- Witness for C2 at the zero-candidate, no-error client outcome. -/
theorem extractAndCreate_err_iff_extractor_err_witness :
    (ExtractAndCreateTasks ([], none) (fun _ => false) "no tasks here" 2 0).createdTasks = [] ∧
    (ExtractAndCreateTasks ([], none) (fun _ => false) "no tasks here" 2 0).err = none :=
  (extractAndCreate_err_iff_extractor_err ([], none) (fun _ => false) "no tasks here" 2 0).2 rfl

/-- C3: when storage never fails, `ExtractAndCreateTasks` creates exactly
one task per candidate, the ids in the batch are pairwise distinct (fresh),
and every created task is owned by the requesting user and carries the full
original input text as `RawText`. -/
theorem extractAndCreate_all_success
    (ts : List llm.Task) (cf : Nat → Bool) (text : String) (userID firstID : Nat)
    (hcf : ∀ i, cf i = false) :
    (ExtractAndCreateTasks (ts, none) cf text userID firstID).err = none ∧
    (ExtractAndCreateTasks (ts, none) cf text userID firstID).createdTasks.length
      = ts.length ∧
    ((ExtractAndCreateTasks (ts, none) cf text userID
      firstID).createdTasks.map models.Task.ID).Nodup ∧
    ∀ t ∈ (ExtractAndCreateTasks (ts, none) cf text userID firstID).createdTasks,
      t.UserID = userID ∧ t.RawText = text := by
  have key := extractLoop_all_ok cf text userID ts 0 firstID (fun i _ => hcf (0 + i))
  refine ⟨rfl, ?_, ?_, ?_⟩
  · show ((extractLoop cf text userID ts 0 firstID).1).length = ts.length
    rw [key]
    exact extractLoop_false_length text userID ts 0 firstID
  · show ((extractLoop cf text userID ts 0 firstID).1.map models.Task.ID).Nodup
    exact extractLoop_ids_nodup cf text userID ts 0 firstID
  · show ∀ t ∈ (extractLoop cf text userID ts 0 firstID).1, t.UserID = userID ∧ t.RawText = text
    exact fun t ht => extractLoop_mem_fields cf text userID ts 0 firstID t ht

/-- Witness for C3 on two concrete candidates with never-failing storage. -/
theorem extractAndCreate_all_success_witness :
    (ExtractAndCreateTasks
      ([⟨"buy milk", "d1", 9, "high", []⟩, ⟨"call mom", "d2", 0, "low", []⟩], none)
      (fun _ => false) "buy milk, call mom" 3 50).err = none ∧
    (ExtractAndCreateTasks
      ([⟨"buy milk", "d1", 9, "high", []⟩, ⟨"call mom", "d2", 0, "low", []⟩], none)
      (fun _ => false) "buy milk, call mom" 3 50).createdTasks.length = 2 ∧
    ((ExtractAndCreateTasks
      ([⟨"buy milk", "d1", 9, "high", []⟩, ⟨"call mom", "d2", 0, "low", []⟩], none)
      (fun _ => false) "buy milk, call mom" 3 50).createdTasks.map models.Task.ID).Nodup := by
  obtain ⟨h1, h2, h3, -⟩ := extractAndCreate_all_success
    [⟨"buy milk", "d1", 9, "high", []⟩, ⟨"call mom", "d2", 0, "low", []⟩]
    (fun _ => false) "buy milk, call mom" 3 50 (fun _ => rfl)
  exact ⟨h1, h2, h3⟩

/-- C10: when the extraction client itself errors, `ExtractAndCreateTasks`
returns at once: it reports the wrapped error, returns no tasks, and its
`CreateTask` call trace is empty — the stored state is untouched. -/
theorem extractAndCreate_extraction_failure_atomic
    (ts : List llm.Task) (e : String) (cf : Nat → Bool) (text : String)
    (userID firstID : Nat) :
    ExtractAndCreateTasks (ts, some e) cf text userID firstID =
      { createdTasks := []
        err := some ("failed to extract tasks with LLM: " ++ e)
        createCalls := [] } := rfl

/-- C6: the candidate-to-task translation maps a zero-valued (absent) due
date to a nil due date, and any other due date to exactly the candidate's
timestamp, stored as-is. -/
theorem translateTask_dueDate (c : llm.Task) (newID userID : Nat) (text : String) :
    (c.DueDate = 0 → (translateTask newID userID text c).DueDate = none) ∧
    (c.DueDate ≠ 0 → (translateTask newID userID text c).DueDate = some c.DueDate) := by
  constructor
  · intro h
    simp [translateTask, GoTime.IsZero, h]
  · intro h
    simp [translateTask, GoTime.IsZero, h]

/-- Witness for C6 at a zero-valued and a non-zero due date. -/
theorem translateTask_dueDate_witness :
    (translateTask 1 2 "t" ⟨"a", "d", 0, "low", []⟩).DueDate = none ∧
    (translateTask 1 2 "t" ⟨"a", "d", 5, "low", []⟩).DueDate = some 5 :=
  ⟨(translateTask_dueDate ⟨"a", "d", 0, "low", []⟩ 1 2 "t").1 rfl,
   (translateTask_dueDate ⟨"a", "d", 5, "low", []⟩ 1 2 "t").2 (by decide)⟩

/-- C7: the candidate-to-task translation copies title, description and
priority verbatim — for every candidate, hence for any priority string the
model returned, with no validation or coercion against the low/medium/high
enumeration. -/
theorem translateTask_copies_verbatim (c : llm.Task) (newID userID : Nat) (text : String) :
    (translateTask newID userID text c).Title = c.Title ∧
    (translateTask newID userID text c).Description = c.Description ∧
    (translateTask newID userID text c).Priority = c.Priority :=
  ⟨rfl, rfl, rfl⟩

/-- C4: `ExtractTasks` errors exactly when the transport fails, the provider
returns a non-200 status, the success response does not decode into the
envelope shape, or the envelope has a first choice whose inner content does
not unmarshal into the candidate array; and on that last failure it returns
both an error and the empty candidate slice. -/
theorem extractTasks_error_characterization
    (decodeEnvelope : String → Option llm.OpenAIResponse)
    (unmarshalTasks : String → Option (List llm.Task))
    (outcome : llm.HTTPOutcome) :
    ((llm.ExtractTasks decodeEnvelope unmarshalTasks outcome).2 ≠ none ↔
      (∃ m, outcome = .transportError m) ∨
      (∃ s b, outcome = .response s b ∧ s ≠ 200) ∨
      (∃ b, outcome = .response 200 b ∧ decodeEnvelope b = none) ∨
      (∃ b r c cs, outcome = .response 200 b ∧ decodeEnvelope b = some r ∧
        r.choices = c :: cs ∧ unmarshalTasks c.message.content = none)) ∧
    (∀ b r c cs, outcome = .response 200 b → decodeEnvelope b = some r →
      r.choices = c :: cs → unmarshalTasks c.message.content = none →
      (llm.ExtractTasks decodeEnvelope unmarshalTasks outcome).1 = some [] ∧
      (llm.ExtractTasks decodeEnvelope unmarshalTasks outcome).2 ≠ none) := by
  cases outcome with
  | transportError m =>
      refine ⟨⟨fun _ => Or.inl ⟨m, rfl⟩, fun _ => by simp [llm.ExtractTasks]⟩, ?_⟩
      intro b r c cs hresp
      simp at hresp
  | response s b =>
      by_cases hs : s = 200
      · subst hs
        cases hde : decodeEnvelope b with
        | none =>
            have hval : llm.ExtractTasks decodeEnvelope unmarshalTasks (.response 200 b) =
                (none, some "failed to decode OpenAI response") := by
              simp [llm.ExtractTasks, hde]
            refine ⟨⟨fun _ => Or.inr (Or.inr (Or.inl ⟨b, rfl, hde⟩)),
              fun _ => by simp [hval]⟩, ?_⟩
            intro b' r' c' cs' hresp hr'
            exfalso
            obtain ⟨rfl⟩ : b' = b := by simpa [eq_comm] using hresp
            rw [hde] at hr'
            exact Option.noConfusion hr'
        | some r =>
            cases hch : r.choices with
            | nil =>
                have hval : llm.ExtractTasks decodeEnvelope unmarshalTasks (.response 200 b) =
                    (some [], none) := by
                  simp [llm.ExtractTasks, hde, hch]
                refine ⟨⟨fun h => absurd (by simp [hval]) h, ?_⟩, ?_⟩
                · rintro (⟨m, hm⟩ | ⟨s', b', hb, hs'⟩ | ⟨b', hb, hnone⟩ |
                    ⟨b', r', c', cs', hb, hr, hc, hu⟩)
                  · exact llm.HTTPOutcome.noConfusion hm
                  · exfalso
                    obtain ⟨h1, -⟩ : s' = 200 ∧ b' = b := by simpa [eq_comm] using hb
                    exact hs' h1
                  · exfalso
                    obtain rfl : b' = b := by simpa [eq_comm] using hb
                    rw [hde] at hnone
                    exact Option.noConfusion hnone
                  · exfalso
                    obtain rfl : b' = b := by simpa [eq_comm] using hb
                    rw [hde] at hr
                    obtain rfl : r' = r := by simpa [eq_comm] using hr
                    rw [hch] at hc
                    exact List.noConfusion hc
                · intro b' r' c' cs' hresp hr hc hu
                  exfalso
                  obtain rfl : b' = b := by simpa [eq_comm] using hresp
                  rw [hde] at hr
                  obtain rfl : r' = r := by simpa [eq_comm] using hr
                  rw [hch] at hc
                  exact List.noConfusion hc
            | cons c cs =>
                cases hum : unmarshalTasks c.message.content with
                | none =>
                    have hval : llm.ExtractTasks decodeEnvelope unmarshalTasks
                        (.response 200 b) =
                        (some [], some ("failed to unmarshal tasks from LLM response. Response content: "
                          ++ c.message.content)) := by
                      simp [llm.ExtractTasks, hde, hch, hum]
                    refine ⟨⟨fun _ => Or.inr (Or.inr (Or.inr ⟨b, r, c, cs, rfl, hde, hch, hum⟩)),
                      fun _ => by simp [hval]⟩, ?_⟩
                    intro b' r' c' cs' hresp hr hc hu
                    exact ⟨by simp [hval], by simp [hval]⟩
                | some tasks =>
                    have hval : llm.ExtractTasks decodeEnvelope unmarshalTasks
                        (.response 200 b) = (some tasks, none) := by
                      simp [llm.ExtractTasks, hde, hch, hum]
                    refine ⟨⟨fun h => absurd (by simp [hval]) h, ?_⟩, ?_⟩
                    · rintro (⟨m, hm⟩ | ⟨s', b', hb, hs'⟩ | ⟨b', hb, hnone⟩ |
                        ⟨b', r', c', cs', hb, hr, hc, hu⟩)
                      · exact llm.HTTPOutcome.noConfusion hm
                      · exfalso
                        obtain ⟨h1, -⟩ : s' = 200 ∧ b' = b := by simpa [eq_comm] using hb
                        exact hs' h1
                      · exfalso
                        obtain rfl : b' = b := by simpa [eq_comm] using hb
                        rw [hde] at hnone
                        exact Option.noConfusion hnone
                      · exfalso
                        obtain rfl : b' = b := by simpa [eq_comm] using hb
                        rw [hde] at hr
                        obtain rfl : r' = r := by simpa [eq_comm] using hr
                        rw [hch] at hc
                        obtain ⟨rfl, -⟩ : c' = c ∧ cs' = cs := by simpa [eq_comm] using hc
                        rw [hum] at hu
                        exact Option.noConfusion hu
                    · intro b' r' c' cs' hresp hr hc hu
                      exfalso
                      obtain rfl : b' = b := by simpa [eq_comm] using hresp
                      rw [hde] at hr
                      obtain rfl : r' = r := by simpa [eq_comm] using hr
                      rw [hch] at hc
                      obtain ⟨rfl, -⟩ : c' = c ∧ cs' = cs := by simpa [eq_comm] using hc
                      rw [hum] at hu
                      exact Option.noConfusion hu
      · have hval : llm.ExtractTasks decodeEnvelope unmarshalTasks (.response s b) =
            (none, some ("openai api error: status " ++ toString s ++ ", body: " ++ b)) := by
          simp [llm.ExtractTasks, hs]
        refine ⟨⟨fun _ => Or.inr (Or.inl ⟨s, b, rfl, hs⟩), fun _ => by simp [hval]⟩, ?_⟩
        intro b' r' c' cs' hresp
        exfalso
        obtain ⟨h1, -⟩ : s = 200 ∧ b = b' := by simpa using hresp
        exact hs h1

/-- Witness for C4: a 200 response whose envelope decodes but whose inner
content is not a well-formed candidate array yields an error together with
the empty candidate slice. -/
theorem extractTasks_error_characterization_witness :
    (llm.ExtractTasks (fun _ => some ⟨[⟨⟨"not json"⟩⟩]⟩) (fun _ => none)
      (.response 200 "body")).1 = some [] ∧
    (llm.ExtractTasks (fun _ => some ⟨[⟨⟨"not json"⟩⟩]⟩) (fun _ => none)
      (.response 200 "body")).2 ≠ none :=
  (extractTasks_error_characterization (fun _ => some ⟨[⟨⟨"not json"⟩⟩]⟩) (fun _ => none)
    (.response 200 "body")).2 "body" ⟨[⟨⟨"not json"⟩⟩]⟩ ⟨⟨"not json"⟩⟩ []
    rfl rfl rfl rfl

/-- C5: with unique row ids (the primary-key invariant), a task owned by A
is never matched by a read, update, or delete request bearing B's identity,
even when the request carries the task's exact id; all three operations
report the uniform "task not found or unauthorized" outcome and leave the
store unchanged. -/
theorem ownerScoping_mismatch_uniform
    (A B : Nat) (T task : models.Task) (store : List models.Task)
    (hAB : A ≠ B) (hMem : T ∈ store) (hOwn : T.UserID = A)
    (hNodup : (store.map models.Task.ID).Nodup)
    (hTaskID : task.ID = T.ID) :
    GetTaskByID T.ID B store = (none, some "task not found or unauthorized") ∧
    UpdateTask task B store = (store, some "task not found or unauthorized") ∧
    DeleteTask T.ID B store = (store, some "task not found or unauthorized") := by
  have hinj : ∀ x ∈ store, ∀ y ∈ store, x.ID = y.ID → x = y := by
    intro x hx y hy hxy
    exact List.inj_on_of_nodup_map hNodup hx hy hxy
  have hnomatch : ∀ x ∈ store, (x.ID == T.ID && x.UserID == B) = false := by
    intro x hx
    rcases Bool.eq_false_or_eq_true (x.ID == T.ID && x.UserID == B) with ht | hf
    · exfalso
      rw [Bool.and_eq_true] at ht
      have h1 : x.ID = T.ID := by simpa using ht.1
      have h2 : x.UserID = B := by simpa using ht.2
      have hxT : x = T := hinj x hx T hMem h1
      apply hAB
      rw [← hOwn, ← h2, hxT]
    · exact hf
  have hfind : store.find? (fun t => t.ID == T.ID && t.UserID == B) = none :=
    List.find?_eq_none.mpr (fun x hx => by simp [hnomatch x hx])
  have hdel : repositories.DeleteTask T.ID B store = (store, some "record not found") := by
    have hfil : store.filter (fun t => !(t.ID == T.ID && t.UserID == B)) = store :=
      List.filter_eq_self.mpr (fun x hx => by simp [hnomatch x hx])
    simp only [repositories.DeleteTask, hfil, beq_self_eq_true, if_true]
  refine ⟨?_, ?_, ?_⟩
  · simp [GetTaskByID, repositories.GetTaskByID, hfind]
  · simp [UpdateTask, repositories.GetTaskByID, hTaskID, hfind]
  · simp [DeleteTask, hdel]

/-- Witness for C5: a one-row store owned by user 1, queried by user 2 with
the row's exact id. -/
theorem ownerScoping_mismatch_uniform_witness :
    GetTaskByID 10 2 [⟨10, 1, "t", "d", none, "low", "r", false, 0, 0⟩] =
      (none, some "task not found or unauthorized") ∧
    UpdateTask ⟨10, 2, "t2", "d2", none, "high", "r2", false, 0, 0⟩ 2
      [⟨10, 1, "t", "d", none, "low", "r", false, 0, 0⟩] =
      ([⟨10, 1, "t", "d", none, "low", "r", false, 0, 0⟩],
        some "task not found or unauthorized") ∧
    DeleteTask 10 2 [⟨10, 1, "t", "d", none, "low", "r", false, 0, 0⟩] =
      ([⟨10, 1, "t", "d", none, "low", "r", false, 0, 0⟩],
        some "task not found or unauthorized") :=
  ownerScoping_mismatch_uniform 1 2
    ⟨10, 1, "t", "d", none, "low", "r", false, 0, 0⟩
    ⟨10, 2, "t2", "d2", none, "high", "r2", false, 0, 0⟩
    [⟨10, 1, "t", "d", none, "low", "r", false, 0, 0⟩]
    (by decide) (by decide) rfl (by decide) rfl

/-- C9: when the ownership-scoped lookup matches, `UpdateTask` succeeds and
saves a row that overwrites only Title, Description, DueDate, Priority and
RawText from the request, while keeping the stored task's ID, UserID
(ownership), CreatedAt and Completed; no row not in the original store other
than that saved row appears. -/
theorem updateTask_frame
    (task : models.Task) (userID : Nat) (store : List models.Task)
    (existingTask : models.Task)
    (hfind : repositories.GetTaskByID task.ID userID store = some existingTask) :
    (UpdateTask task userID store).2 = none ∧
    (applyUpdate existingTask task).ID = existingTask.ID ∧
    (applyUpdate existingTask task).UserID = existingTask.UserID ∧
    (applyUpdate existingTask task).CreatedAt = existingTask.CreatedAt ∧
    (applyUpdate existingTask task).Completed = existingTask.Completed ∧
    (applyUpdate existingTask task).Title = task.Title ∧
    (applyUpdate existingTask task).Description = task.Description ∧
    (applyUpdate existingTask task).DueDate = task.DueDate ∧
    (applyUpdate existingTask task).Priority = task.Priority ∧
    (applyUpdate existingTask task).RawText = task.RawText ∧
    (UpdateTask task userID store).1 =
      repositories.UpdateTask (applyUpdate existingTask task) store ∧
    ∀ u ∈ (UpdateTask task userID store).1,
      u ∈ store ∨ u = applyUpdate existingTask task := by
  have hupd : UpdateTask task userID store =
      (repositories.UpdateTask (applyUpdate existingTask task) store, none) := by
    simp [UpdateTask, hfind]
  refine ⟨by rw [hupd], rfl, rfl, rfl, rfl, rfl, rfl, rfl, rfl, rfl, by rw [hupd], ?_⟩
  intro u hu
  rw [hupd] at hu
  simp only [repositories.UpdateTask, List.mem_map] at hu
  rcases hu with ⟨t, ht, hmap⟩
  rcases Bool.eq_false_or_eq_true (t.ID == (applyUpdate existingTask task).ID) with ht' | hf'
  · right
    rw [← hmap]
    simp [ht']
  · left
    rw [← hmap]
    simp only [hf', Bool.false_eq_true, if_false]
    exact ht

/-- Witness for C9: a one-row store updated by its owner with a request
changing every updatable field. -/
theorem updateTask_frame_witness :
    (UpdateTask ⟨10, 99, "t2", "d2", some 5, "high", "r2", true, 77, 0⟩ 1
      [⟨10, 1, "t", "d", none, "low", "r", false, 3, 0⟩]).2 = none ∧
    (applyUpdate ⟨10, 1, "t", "d", none, "low", "r", false, 3, 0⟩
      ⟨10, 99, "t2", "d2", some 5, "high", "r2", true, 77, 0⟩).UserID = 1 ∧
    (applyUpdate ⟨10, 1, "t", "d", none, "low", "r", false, 3, 0⟩
      ⟨10, 99, "t2", "d2", some 5, "high", "r2", true, 77, 0⟩).CreatedAt = 3 ∧
    (applyUpdate ⟨10, 1, "t", "d", none, "low", "r", false, 3, 0⟩
      ⟨10, 99, "t2", "d2", some 5, "high", "r2", true, 77, 0⟩).Completed = false ∧
    (applyUpdate ⟨10, 1, "t", "d", none, "low", "r", false, 3, 0⟩
      ⟨10, 99, "t2", "d2", some 5, "high", "r2", true, 77, 0⟩).Title = "t2" := by
  obtain ⟨h1, -, h2, h3, h4, h5, -⟩ := updateTask_frame
    ⟨10, 99, "t2", "d2", some 5, "high", "r2", true, 77, 0⟩ 1
    [⟨10, 1, "t", "d", none, "low", "r", false, 3, 0⟩]
    ⟨10, 1, "t", "d", none, "low", "r", false, 3, 0⟩ (by decide)
  exact ⟨h1, h2, h3, h4, h5⟩

/-- C8 counterexample: the claim says the extraction operation takes a
reference time and resolves dates against it "rather than a fixed date baked
into the instruction string." In the code there is no reference-time
parameter: the request built for a concrete input carries only the constant
system prompt and the user text, and that constant prompt has the line
"Current Date: November 19, 2025" baked in. -/
theorem extractionPrompt_hardcoded_date :
    llm.openAIExtractionPrompt =
      llm.promptBeforeDate ++ "Current Date: November 19, 2025" ++ llm.promptAfterDate ∧
    llm.extractionRequestMessages "Buy milk and eggs tomorrow" =
      [("system", llm.openAIExtractionPrompt), ("user", "Buy milk and eggs tomorrow")] :=
  ⟨rfl, rfl⟩

/-- C8 amended: the extraction operation takes only the input text, and for
every input the request's system instruction is one and the same fixed
string, whose date-resolution reference is the hardcoded line
"Current Date: November 19, 2025" inside it. -/
theorem extractionRequest_fixed_reference_date (text : String) :
    llm.extractionRequestMessages text =
      [("system", llm.promptBeforeDate ++ "Current Date: November 19, 2025"
        ++ llm.promptAfterDate), ("user", text)] := by
  show llm.extractionRequestMessages text = [("system", llm.openAIExtractionPrompt), ("user", text)]
  rfl

end TodoBackend
